import Mathlib

/-!
Verification of the dhttp HTTP/1.1 server engine.

This file shallowly embeds the parts of the dhttp sources that the
verified properties speak about:

* `src/core/connection.rs` — the `EmitContinue` body reader (a
  `tokio::io::Take`-capped view of the connection plus a pending
  100-continue preamble);
* `src/server.rs` — the connection state machine's parse-error branch,
  error-classification branch and keep-alive decision;
* `src/h1.rs` — request-line/header parsing and the response
  serializer's Content-Length emission;
* `src/reqres/file.rs` — byte-range and If-Modified-Since handling;
* `src/services/router.rs` — route resolution;
* `src/core/error.rs` — classification of I/O errors.

Rust strings are modelled as `List Char`, bytes as `Nat` (values below
256 by construction of the inputs), `u64`/`u8` arithmetic as `Nat` with
explicit bounds where the source can overflow.  Async I/O is modelled by
explicit state passing: a reader is a structure holding the bytes still
pending on the connection, and each `poll_read`/`fill_buf`/`consume`
call is a pure state transition.
-/

/-- Rust `&str` / `String`, modelled as a list of characters. -/
abbrev RStr := List Char

/-- Converts a Lean string literal to the `RStr` model. -/
def str (s : String) : RStr := s.data

/-- Bytes of an ASCII string literal (used to build wire input). -/
def bytesOfAscii (s : String) : List Nat := s.data.map Char.toNat

/-- `u64::MAX`, the value taken by an absent range end in `parse_range`. -/
def u64MAX : Nat := 2 ^ 64 - 1

/-- `HttpVersion` from `src/reqres/req.rs`: a major/minor pair (u8 in the
source; parsing bounds both components by 255). -/
structure HttpVersion where
  major : Nat
  minor : Nat
deriving DecidableEq, Repr

/-- `HttpVersion::is` from `src/reqres/req.rs`. -/
def HttpVersion.is (v : HttpVersion) (major minor : Nat) : Bool :=
  v.major == major && v.minor == minor

/-!
## The body reader (`EmitContinue` over `tokio::io::Take`)

`src/server.rs` hands the service `EmitContinue { conn: (&mut conn).take(req.len),
to_send }` where `to_send` is the 100-continue preamble when the request
carries `Expect: 100-continue` and empty otherwise
(`src/core/connection.rs`, lines 50-76).

The model state holds the bytes the wrapper still has to write
(`to_send`), the remaining `Take` read budget (`limit`), the bytes
buffered or pending on the underlying connection (`input`), and the
bytes written to the connection so far (`written`, the wire output).
-/

structure EmitContinue where
  to_send : List Nat
  limit : Nat
  input : List Nat
  written : List Nat
deriving DecidableEq, Repr

/-- `EmitContinue::poll_read` (`src/core/connection.rs` lines 56-65): first
the pending `to_send` bytes are written to the underlying connection (the
`while` loop), only then does the capped `Take` read run.  The `Take`
yields at most `min n limit` bytes, and no more than are pending. -/
def EmitContinue.poll_read (s : EmitContinue) (n : Nat) : List Nat × EmitContinue :=
  let flushed : EmitContinue :=
    { s with written := s.written ++ s.to_send, to_send := [] }
  let k := min n (min flushed.limit flushed.input.length)
  (flushed.input.take k,
   { flushed with input := flushed.input.drop k, limit := flushed.limit - k })

/-- `EmitContinue::poll_fill_buf` (`src/core/connection.rs` lines 69-71)
delegates straight to the inner `Take`, whose `poll_fill_buf` exposes the
buffered bytes truncated to the remaining limit.  Note that `to_send` is
not consulted. -/
def EmitContinue.fill_buf (s : EmitContinue) : List Nat :=
  s.input.take s.limit

/-- `EmitContinue::consume` (`src/core/connection.rs` lines 73-75)
delegates to `Take::consume`, which clamps the amount to the remaining
limit, subtracts it from the limit and consumes it from the inner
reader. -/
def EmitContinue.consume (s : EmitContinue) (amt : Nat) : EmitContinue :=
  let k := min amt s.limit
  { s with input := s.input.drop k, limit := s.limit - k }

/-- One operation a handler can perform on the body reader: an
`AsyncRead` read with an `n`-byte destination buffer, an `AsyncBufRead`
`fill_buf` peek, or an `AsyncBufRead` `consume`. -/
inductive BodyOp where
  | readOp (n : Nat)
  | fillBufOp
  | consumeOp (n : Nat)
deriving DecidableEq, Repr

/-- Runs one handler operation; the first component is the list of body
bytes the operation hands over to (or skips past for) the handler:
the bytes returned by a read, the bytes advanced past by a consume,
nothing for a pure `fill_buf` peek. -/
def EmitContinue.step (s : EmitContinue) : BodyOp → List Nat × EmitContinue
  | .readOp n => s.poll_read n
  | .fillBufOp => ([], s)
  | .consumeOp n => (s.input.take (min n s.limit), s.consume n)

/-- Runs a sequence of handler operations, accumulating the yielded
bytes. -/
def EmitContinue.run (s : EmitContinue) : List BodyOp → List Nat × EmitContinue
  | [] => ([], s)
  | op :: ops =>
    let r := s.step op
    let rest := r.2.run ops
    (r.1 ++ rest.1, rest.2)

/-- The `100 Continue` preamble constant from `src/server.rs` line 104. -/
def continue_preamble : List Nat := bytesOfAscii "HTTP/1.1 100 Continue\r\n\r\n"

/-- The body reader as constructed by `handle_connection`
(`src/server.rs` lines 99-105): the connection capped at the declared
body length `req.len`, with the preamble pending exactly when the
request carries `Expect: 100-continue`.  Nothing is written at
construction (parse) time. -/
def mkBody (conn_input : List Nat) (len : Nat) (expect_continue : Bool) : EmitContinue :=
  { to_send := if expect_continue then continue_preamble else []
    limit := len
    input := conn_input
    written := [] }

/-!
## Connection persistence (`src/server.rs` lines 148-163)
-/

/-- Outcome of the keep-alive decision: whether the connection loop ends
after this response, and which `Connection` header was appended. -/
structure PersistDecision where
  connection_close : Bool
  header : Option (String × String)
deriving DecidableEq, Repr

/-- The keep-alive decision of `handle_connection` (`src/server.rs`
lines 148-163).  `body_limit_left` is `body.conn.limit()`, the unread
remainder of the request body; `keep_alive_requested` is
`req.cmp_header("Connection", "keep-alive")`. -/
def persist_decision (body_limit_left : Nat) (v : HttpVersion)
    (keep_alive_requested : Bool) : PersistDecision :=
  if body_limit_left != 0 || v.is 1 0 then
    { connection_close := true, header := some ("Connection", "close") }
  else if v.major == 1 then
    if keep_alive_requested then
      { connection_close := false, header := some ("Connection", "keep-alive") }
    else
      { connection_close := true, header := some ("Connection", "close") }
  else
    { connection_close := false, header := none }

/-!
## Rust string/number helpers used across the embedded functions
-/

/-- Value of `u64` seconds cast `as i64` (`src/reqres/file.rs` line 70). -/
def i64cast (n : Nat) : Int :=
  if n % 2 ^ 64 < 2 ^ 63 then ((n % 2 ^ 64 : Nat) : Int)
  else ((n % 2 ^ 64 : Nat) : Int) - 2 ^ 64

/-- Accumulates decimal digits; fails at the first non-digit. -/
def parse_digits_aux (acc : Nat) : RStr → Option Nat
  | [] => some acc
  | c :: rest =>
    if 48 ≤ c.toNat && c.toNat ≤ 57 then
      parse_digits_aux (acc * 10 + (c.toNat - 48)) rest
    else none

/-- Rust unsigned-integer `str::parse`: an optional leading `+`, then at
least one decimal digit, rejecting values above `bound` (the overflow
check; `bound` is 255 for `u8` and `u64MAX` for `u64`). -/
def rust_parse_uint (bound : Nat) (s : RStr) : Option Nat :=
  let s2 := match s with
    | c :: rest => if c == '+' then rest else s
    | [] => s
  match s2 with
  | [] => none
  | _ =>
    match parse_digits_aux 0 s2 with
    | some v => if v ≤ bound then some v else none
    | none => none

/-- Rust `str::split_once(c)`: splits at the first occurrence of `c`. -/
def split_once (c : Char) (s : RStr) : Option (RStr × RStr) :=
  match s.findIdx? (fun x => x == c) with
  | none => none
  | some i => some (s.take i, s.drop (i + 1))

/-- Decimal rendering of a `Nat`, matching Rust `Display` for unsigned
integers. -/
def natStr (n : Nat) : RStr := (Nat.repr n).data

/-- Rust `char::is_whitespace`: the Unicode `White_Space` set. -/
def is_rust_whitespace (c : Char) : Bool :=
  (9 ≤ c.toNat && c.toNat ≤ 13) || c.toNat == 32 || c.toNat == 133 ||
  c.toNat == 160 || c.toNat == 5760 || (8192 ≤ c.toNat && c.toNat ≤ 8202) ||
  c.toNat == 8232 || c.toNat == 8233 || c.toNat == 8239 || c.toNat == 8287 ||
  c.toNat == 12288

/-- Splits at every character satisfying `p`, keeping empty chunks
(the shape of Rust `str::split`). -/
def split_on_pred (p : Char → Bool) : RStr → List RStr
  | [] => [[]]
  | x :: rest =>
    if p x then [] :: split_on_pred p rest
    else
      match split_on_pred p rest with
      | g :: gs => (x :: g) :: gs
      | [] => [[x]]

/-- Rust `str::split_whitespace`: maximal runs of non-whitespace. -/
def split_whitespace (s : RStr) : List RStr :=
  (split_on_pred is_rust_whitespace s).filter (fun t => !t.isEmpty)

/-- Rust `str::split(c)` (keeps empty components). -/
def splitOnChar (c : Char) (s : RStr) : List RStr :=
  split_on_pred (fun x => x == c) s

/-- Rust `str::trim` (both ends, Unicode whitespace). -/
def rust_trim (s : RStr) : RStr :=
  ((s.dropWhile is_rust_whitespace).reverse.dropWhile is_rust_whitespace).reverse

/-- Rust `u8::to_ascii_lowercase` on a character (A-Z mapped down). -/
def ascii_lower (c : Char) : Char :=
  if 65 ≤ c.toNat && c.toNat ≤ 90 then Char.ofNat (c.toNat + 32) else c

/-- Rust `str::eq_ignore_ascii_case`. -/
def eq_ignore_ascii_case (a b : RStr) : Bool :=
  a.map ascii_lower == b.map ascii_lower

/-!
## Response bodies and the serializer head (`src/reqres/body.rs`, `src/h1.rs`)
-/

/-- `HttpBody` from `src/reqres/body.rs` lines 36-44 (file handles are
abstracted to the `len` that `send` uses).  The `Empty` variant is
Modelled from the spec: `src/reqres/file.rs` line 73 and
`src/reqres/res.rs` line 75 construct `HttpBody::Empty`, but its
declaration (and the `send` arm for it) is missing from the `HttpBody`
definition shipped in `src/reqres/body.rs`; the spec describes it as a
variant for which no length header is emitted. -/
inductive HttpBody where
  | Bytes (bytes : List Nat)
  | File (len : Nat)
  | Upgrade
  | Empty
deriving DecidableEq, Repr

/-- `StatusCode::as_str` from `src/reqres/status_code.rs`. -/
def as_str (code : Nat) : RStr :=
  match code with
  | 200 => str "OK"
  | 206 => str "Partial content"
  | 301 => str "Moved permanently"
  | 304 => str "Not modified"
  | 400 => str "Bad request"
  | 401 => str "Unauthorized"
  | 403 => str "Forbidden"
  | 404 => str "Not found"
  | 405 => str "Method not allowed"
  | 413 => str "Request entity too large"
  | 416 => str "Range not satisfiable"
  | 500 => str "Internal server error"
  | 505 => str "HTTP version not supported"
  | _ => str "Unknown"

/-- The response record consumed by `h1::send` (`src/h1.rs` lines
76-94): status code, caller headers, content type and body. -/
structure HttpResponse where
  code : Nat
  headers : List (RStr × RStr)
  content_type : RStr
  body : HttpBody
deriving DecidableEq, Repr

/-- The head `h1::send` serializes before the blank line (`src/h1.rs`
lines 77-94), one line per list entry: the status line, each caller
header, a `Content-Type` header when non-empty, and the computed
`Content-Length` match on the body.  The `Empty` arm emitting nothing is
Modelled from the spec (the variant is absent from `src/reqres/body.rs`,
see `HttpBody`); the `Bytes`, `File` and `Upgrade` arms are the match at
`src/h1.rs` lines 89-93. -/
def send_head (res : HttpResponse) : List RStr :=
  (str "HTTP/1.1 " ++ natStr res.code ++ str " " ++ as_str res.code)
  :: (res.headers.map (fun h => h.1 ++ str ": " ++ h.2)
  ++ (if res.content_type.isEmpty then [] else [str "Content-Type: " ++ res.content_type])
  ++ (match res.body with
      | .Bytes bytes => [str "Content-Length: " ++ natStr bytes.length]
      | .File len => [str "Content-Length: " ++ natStr len]
      | .Upgrade => []
      | .Empty => []))

/-- Recognizes a serialized `Content-Length` header line. -/
def is_content_length_line (l : RStr) : Bool :=
  (str "Content-Length:").isPrefixOf l

/-- Bytes put on the wire for a `File` body (`src/h1.rs` line 108):
`tokio::io::copy(&mut file.take(len), conn)` starting at position `seek`
of a `file_len`-byte file delivers `min len (file_len - seek)` bytes. -/
def delivered_bytes (file_len seek len : Nat) : Nat :=
  min len (file_len - seek)

/-!
## Range and conditional file delivery (`src/reqres/file.rs`)
-/

/-- `parse_range` from `src/reqres/file.rs` lines 79-84: strips
`bytes=`, splits at the first `-`; an empty start means 0, an empty end
means `u64::MAX`; the components go through `u64` parsing. -/
def parse_range (range : RStr) : Option (Nat × Nat) :=
  if (str "bytes=").isPrefixOf range then
    match split_once '-' (range.drop 6) with
    | none => none
    | some (s, e) =>
      match (if s.isEmpty then some 0 else rust_parse_uint u64MAX s),
            (if e.isEmpty then some u64MAX else rust_parse_uint u64MAX e) with
      | some a, some b => some (a, b)
      | _, _ => none
  else none

/-- The `Content-Range` value `format!("bytes {start}-{end}/{len}")`
(`src/reqres/file.rs` line 51). -/
def content_range_value (start e len : Nat) : RStr :=
  str "bytes " ++ natStr start ++ str "-" ++ natStr e ++ str "/" ++ natStr len

/-- What `file` returns: status code, pushed headers, body, and the file
position established by `file.seek` (0 when no seek ran). -/
structure FileResponse where
  code : Nat
  headers : List (RStr × RStr)
  body : HttpBody
  seek : Nat
deriving DecidableEq, Repr

/-- The If-Modified-Since block of `file` (`src/reqres/file.rs` lines
66-74): when the modification time is available (as whole seconds since
the epoch) and the request's `If-Modified-Since` header parsed to a
value at least that time, the status becomes 304 and the body `Empty` —
the headers pushed so far are kept. -/
def ims_override (mtime_secs : Option Nat) (ims_parsed : Option Int)
    (r : FileResponse) : FileResponse :=
  match mtime_secs, ims_parsed with
  | some m, some p =>
    if p ≥ i64cast m then { r with code := 304, body := .Empty } else r
  | _, _ => r

/-- The headers `file` pushes before range handling (`src/reqres/file.rs`
lines 22-42): `Last-Modified` and `Date` when their formatting
succeeded, then `Accept-Ranges: bytes`. -/
def file_base_headers (last_modified date_now : Option RStr) : List (RStr × RStr) :=
  (match last_modified with
   | some v => [(str "Last-Modified", v)]
   | none => []) ++
  (match date_now with
   | some v => [(str "Date", v)]
   | none => []) ++
  [(str "Accept-Ranges", str "bytes")]

/-- `file` from `src/reqres/file.rs` lines 14-77, for a file that opened
with length `file_len`.  `mtime_secs` models
`metadata.modified().ok()` composed with `duration_since(UNIX_EPOCH)`
(in whole seconds); `last_modified` and `date_now` are the outputs of
`httpdate::from_systime` and `httpdate::now`, pushed as headers exactly
when present; `range_header` is the request's `Range` header;
`ims_parsed` is `httpdate::parse` applied to the request's
`If-Modified-Since` header (`none` when the header is absent or fails to
parse).  The error value is the status code of the `Err` return
(`416`). -/
def file (file_len : Nat) (mtime_secs : Option Nat)
    (last_modified date_now : Option RStr)
    (range_header : Option RStr) (ims_parsed : Option Int) :
    Except Nat FileResponse :=
  let headers0 := file_base_headers last_modified date_now
  match range_header with
  | some range =>
    match parse_range range with
    | some (start, e) =>
      if start ≤ file_len && start ≤ e then
        let e2 := min e file_len
        Except.ok (ims_override mtime_secs ims_parsed
          { code := 206
            headers := headers0 ++ [(str "Content-Range", content_range_value start e2 file_len)]
            body := .File (e2 - start + 1)
            seek := start })
      else
        Except.error 416
    | none => Except.error 416
  | none =>
    Except.ok (ims_override mtime_secs ims_parsed
      { code := 200, headers := headers0, body := .File file_len, seek := 0 })

/-!
## Router resolution (`src/services/router.rs`)

Services are identified by numbers; the `HashMap` of exact routes is an
association list with replacing insert.
-/

structure Router where
  exact : List (RStr × Nat)
  nested : List (RStr × Nat)
deriving DecidableEq, Repr

/-- `HashMap::insert` on the association-list model. -/
def insert_exact : List (RStr × Nat) → RStr → Nat → List (RStr × Nat)
  | [], route, svc => [(route, svc)]
  | (r, s) :: rest, route, svc =>
    if r == route then (route, svc) :: rest
    else (r, s) :: insert_exact rest route svc

/-- `HashMap::get` on the association-list model. -/
def lookup_exact : List (RStr × Nat) → RStr → Option Nat
  | [], _ => none
  | (r, s) :: rest, route => if r == route then some s else lookup_exact rest route

/-- `Router::add` (`src/services/router.rs` lines 55-64): a route ending
in `/` has the slash popped and goes to the nested list (in insertion
order); any other route goes to the exact map. -/
def Router.add (rt : Router) (route : RStr) (svc : Nat) : Router :=
  if route.getLast? == some '/' then
    { rt with nested := rt.nested ++ [(route.dropLast, svc)] }
  else
    { rt with exact := insert_exact rt.exact route svc }

/-- The query-string strip at the top of `Router::find`
(`src/services/router.rs` lines 68-71): the part before the first `?`. -/
def strip_params (route : RStr) : RStr :=
  match route.findIdx? (fun c => c == '?') with
  | some i => route.take i
  | none => route

/-- The nested-route scan of `Router::find` (`src/services/router.rs`
lines 76-88): the first entry whose text is a prefix of the (unstripped)
route and whose leftover is empty (child route `/`) or starts with `/`
(child route = leftover) wins; other entries — including longer
matches added later — are not considered once one matches. -/
def find_nested : List (RStr × Nat) → RStr → Option (RStr × Nat)
  | [], _ => none
  | (p, svc) :: rest, route =>
    if p.isPrefixOf route then
      let rem := route.drop p.length
      if rem.isEmpty then some (str "/", svc)
      else if rem.head? == some '/' then some (rem, svc)
      else find_nested rest route
    else find_nested rest route

/-- `Router::find` (`src/services/router.rs` lines 66-91): exact lookup
on the query-stripped route first (dispatching with the original,
unstripped route), then the nested scan on the unstripped route. -/
def Router.find (rt : Router) (route : RStr) : Option (RStr × Nat) :=
  match lookup_exact rt.exact (strip_params route) with
  | some svc => some (route, svc)
  | none => find_nested rt.nested route

/-- `Router`'s `HttpService::request`/`filter` dispatch
(`src/services/router.rs` lines 94-108): no match is a 404 error. -/
def Router.request (rt : Router) (route : RStr) : Except Nat (RStr × Nat) :=
  match rt.find route with
  | some x => Except.ok x
  | none => Except.error 404

/-- The spec's notion of a structurally-valid prefix match, stated from
the spec's words for comparison with `Router.find`: the prefix must be
followed by end-of-string or `/`. -/
def structurally_valid_match (p route : RStr) : Bool :=
  p.isPrefixOf route &&
  (route.length == p.length || (route.drop p.length).head? == some '/')

/-- The child route the source forwards for a matching nested entry:
`/` when nothing remains, the leftover otherwise. -/
def forwarded_route (p route : RStr) : RStr :=
  if route.length == p.length then str "/" else route.drop p.length

/-!
## Error classification (`src/core/error.rs`, `src/server.rs` lines 117-139)
-/

/-- `HttpErrorType` from `src/core/error.rs` lines 11-18. -/
inductive HttpErrorType where
  | Fatal
  | Hidden
  | User
deriving DecidableEq, Repr

/-- The `io::ErrorKind` values distinguished by `src/core/error.rs`,
plus a bucket for every other kind. -/
inductive ErrorKind where
  | ConnectionRefused | ConnectionReset | HostUnreachable | NetworkUnreachable
  | ConnectionAborted | NotConnected | AddrInUse | AddrNotAvailable
  | NetworkDown | BrokenPipe | TimedOut
  | NotFound | NotADirectory | PermissionDenied
  | UnexpectedEof | InvalidData | WriteZero | Interrupted | OtherKind
deriving DecidableEq, Repr

/-- `is_net` from `src/core/error.rs` lines 52-64. -/
def is_net : ErrorKind → Bool
  | .ConnectionRefused | .ConnectionReset | .HostUnreachable | .NetworkUnreachable
  | .ConnectionAborted | .NotConnected | .AddrInUse | .AddrNotAvailable
  | .NetworkDown | .BrokenPipe | .TimedOut => true
  | _ => false

/-- `HttpError::error_type` for `io::Error` (`src/core/error.rs` lines
71-77). -/
def io_error_type (k : ErrorKind) : HttpErrorType :=
  if is_net k then .Fatal else .User

/-- `HttpError::status_code` for `io::Error` (`src/core/error.rs` lines
87-93). -/
def io_status_code (k : ErrorKind) : Nat :=
  match k with
  | .NotFound | .NotADirectory => 404
  | .PermissionDenied => 403
  | _ => 500

/-- `HttpError::http_description` for `io::Error` (`src/core/error.rs`
lines 79-85); `default_text` is the error's `to_string()`. -/
def io_http_description (k : ErrorKind) (default_text : String) : String :=
  match k with
  | .NotFound | .NotADirectory => "The requested resource was not found on this server"
  | .PermissionDenied => "Access denied"
  | _ => default_text

/-- The view of a `dyn HttpError` that `handle_connection` consumes:
its classification, its status code and its description. -/
structure ErrView where
  etype : HttpErrorType
  scode : Nat
  desc : String

/-- A response produced by the error handler: status code plus page
content (abstracted to a string). -/
structure ErrorResponse where
  code : Nat
  page : String
deriving DecidableEq, Repr

/-- An arbitrary `HttpErrorHandler`: `plain_code` builds a page from a
bare status code, `error` builds a page from the failure's
description.  Both may pick any default status code of their own. -/
structure ErrorHandlerModel where
  plain_code : Nat → ErrorResponse
  error : String → ErrorResponse

/-- The handler-failure branch of `handle_connection` (`src/server.rs`
lines 120-139): `Fatal` shuts the connection down with no response
(`none`); `Hidden` uses `plain_code` of the error's status code; `User`
uses `error` with the failure itself; in both response cases
`handled.code = err.status_code()` overwrites whatever code the page
generator chose. -/
def handle_error (h : ErrorHandlerModel) (e : ErrView) : Option ErrorResponse :=
  match e.etype with
  | .Fatal => none
  | .Hidden => some { h.plain_code e.scode with code := e.scode }
  | .User => some { h.error e.desc with code := e.scode }

/-- The `ErrView` of an `io::Error` with kind `k` and display text
`text`, via the `HttpError` impl in `src/core/error.rs`. -/
def io_err_view (k : ErrorKind) (text : String) : ErrView :=
  { etype := io_error_type k, scode := io_status_code k
    desc := io_http_description k text }

/-!
## Request parsing (`src/h1.rs`) and the parse branch of the
connection loop (`src/server.rs` lines 64-78)
-/

/-- `HttpMethod` from `src/reqres/req.rs` lines 26-32. -/
inductive HttpMethod where
  | Get | Head | Post | Put | Delete | Connect | Options | Trace | Patch
  | Other (s : RStr)
deriving DecidableEq, Repr

/-- `HttpMethod::new` (`src/reqres/req.rs` lines 36-49): case-sensitive
match against the nine verbs, anything else preserved as `Other`. -/
def HttpMethod.new (m : RStr) : HttpMethod :=
  if m == str "GET" then .Get
  else if m == str "HEAD" then .Head
  else if m == str "POST" then .Post
  else if m == str "PUT" then .Put
  else if m == str "DELETE" then .Delete
  else if m == str "CONNECT" then .Connect
  else if m == str "OPTIONS" then .Options
  else if m == str "TRACE" then .Trace
  else if m == str "PATCH" then .Patch
  else .Other m

/-- Header lookup on the parsed header sequence.  Modelled from the
spec: the header-vector `HttpRequest` that `src/h1.rs` constructs is not
shipped in `src/` (the `src/reqres/req.rs` present holds an older
string-block variant); the spec fixes insertion order with
case-insensitive lookup, matching the first header whose name compares
equal ignoring ASCII case, as the shipped variant also does. -/
def get_header (headers : List (RStr × RStr)) (name : RStr) : Option RStr :=
  match headers.find? (fun h => eq_ignore_ascii_case h.1 name) with
  | some h => some h.2
  | none => none

/-- The request record `h1::read` produces (`src/h1.rs` lines 65-72);
the peer address is injected later by the connection loop and is not
modelled. -/
structure HttpRequest where
  method : HttpMethod
  route : RStr
  version : HttpVersion
  headers : List (RStr × RStr)
  len : Nat
deriving DecidableEq, Repr

/-- `HttpRequestError` from `src/h1.rs` lines 122-139. -/
inductive HttpRequestError where
  | Io
  | NotUnicode
  | TooLong
  | EarlyEof
  | InvalidPrelude
  | InvalidVersion
  | InvalidHeader
  | InvalidLength
deriving DecidableEq, Repr

/-- `parse_header` from `src/h1.rs` lines 24-29: the name is everything
before the first colon, the value everything after it, trimmed. -/
def parse_header (line : RStr) : Option (RStr × RStr) :=
  match line.findIdx? (fun c => c == ':') with
  | none => none
  | some i => some (line.take i, rust_trim (line.drop (i + 1)))

/-- `split3` from `src/h1.rs` lines 31-39: exactly three
whitespace-separated tokens. -/
def split3 (line : RStr) : Option (RStr × RStr × RStr) :=
  match split_whitespace line with
  | [m, r, v] => some (m, r, v)
  | _ => none

/-- `parse_ver` from `src/h1.rs` lines 13-22: strips `HTTP/`, splits on
`.`, parses exactly two components as `u8`, rejects a third. -/
def parse_ver (ver : RStr) : Option HttpVersion :=
  if (str "HTTP/").isPrefixOf ver then
    match splitOnChar '.' (ver.drop 5) with
    | [ma, mi] =>
      match rust_parse_uint 255 ma, rust_parse_uint 255 mi with
      | some a, some b => some { major := a, minor := b }
      | _, _ => none
    | _ => none
  else none

/-- One `Lines::next_line` outcome: a line, or the `InvalidData` I/O
error that `read_line` raises when the line's bytes are not UTF-8
(which `From<io::Error> for HttpRequestError` then turns into `Io`,
since its kind is not `UnexpectedEof`).  End of stream is the end of the
event list. -/
abbrev LineEvent := Except Unit RStr

/-- The header loop of `h1::read` (`src/h1.rs` lines 54-63): lines until
an empty one, each required to parse as a header; stream end before the
empty line is `EarlyEof`. -/
def read_headers : List LineEvent → List (RStr × RStr) →
    Except HttpRequestError (List (RStr × RStr))
  | [], _ => Except.error .EarlyEof
  | .error _ :: _, _ => Except.error .Io
  | .ok line :: rest, acc =>
    if line.isEmpty then Except.ok acc
    else
      match parse_header line with
      | none => Except.error .InvalidHeader
      | some h => read_headers rest (acc ++ [h])

/-- `h1::read` (`src/h1.rs` lines 42-73) over the stream of line events:
request line (three tokens, then method/route/version), the header loop,
then the `Content-Length` header parsed as `u64` into `len` (0 when
absent). -/
def h1_read (ls : List LineEvent) : Except HttpRequestError HttpRequest :=
  match ls with
  | [] => Except.error .EarlyEof
  | .error _ :: _ => Except.error .Io
  | .ok first :: rest =>
    match split3 first with
    | none => Except.error .InvalidPrelude
    | some (m, r, v) =>
      match parse_ver v with
      | none => Except.error .InvalidVersion
      | some version =>
        match read_headers rest [] with
        | .error e => Except.error e
        | .ok headers =>
          let req : HttpRequest :=
            { method := HttpMethod.new m, route := r, version := version
              headers := headers, len := 0 }
          match get_header headers (str "Content-Length") with
          | some cl =>
            match rust_parse_uint u64MAX cl with
            | some n => Except.ok { req with len := n }
            | none => Except.error .InvalidLength
          | none => Except.ok req

/-- Strips one trailing CR, as `Lines` does after popping the LF. -/
def strip_trailing_cr (l : List Nat) : List Nat :=
  if l.getLast? == some 13 then l.dropLast else l

/-- Byte-level line splitting as `tokio`'s `Lines` performs it: each
line runs to an LF (popped, with one trailing CR also popped); a
non-empty remainder at end of stream is returned as a final line with no
terminator stripping. -/
def raw_lines_aux (acc : List Nat) : List Nat → List (List Nat)
  | [] => if acc.isEmpty then [] else [acc.reverse]
  | b :: rest =>
    if b == 10 then strip_trailing_cr acc.reverse :: raw_lines_aux [] rest
    else raw_lines_aux (b :: acc) rest

/-- The lines of a byte stream (see `raw_lines_aux`). -/
def raw_lines (bs : List Nat) : List (List Nat) := raw_lines_aux [] bs

/-- A UTF-8 continuation byte. -/
def is_cont (b : Nat) : Bool := 128 ≤ b && b ≤ 191

/-- Valid first continuation byte of a 3-byte sequence (restricted for
the `E0` overlong range and the `ED` surrogate range). -/
def utf8_cont1_3 (b c1 : Nat) : Bool :=
  if b == 224 then 160 ≤ c1 && c1 ≤ 191
  else if b == 237 then 128 ≤ c1 && c1 ≤ 159
  else is_cont c1

/-- Valid first continuation byte of a 4-byte sequence (restricted for
the `F0` overlong range and the `F4` beyond-U+10FFFF range). -/
def utf8_cont1_4 (b c1 : Nat) : Bool :=
  if b == 240 then 144 ≤ c1 && c1 ≤ 191
  else if b == 244 then 128 ≤ c1 && c1 ≤ 143
  else is_cont c1

/-- UTF-8 validation and decoding as `String::from_utf8` performs it
(overlong forms, surrogates and values beyond U+10FFFF rejected),
fuelled: each decoded character consumes at least one byte, so fuel
equal to the byte count never runs out. -/
def utf8_decode_fuel : Nat → List Nat → Option RStr
  | _, [] => some []
  | 0, _ :: _ => none
  | fuel + 1, b :: rest =>
    if b ≤ 127 then
      (utf8_decode_fuel fuel rest).map (fun cs => Char.ofNat b :: cs)
    else if 194 ≤ b && b ≤ 223 then
      match rest with
      | c1 :: rest2 =>
        if is_cont c1 then
          (utf8_decode_fuel fuel rest2).map (fun cs =>
            Char.ofNat ((b - 192) * 64 + (c1 - 128)) :: cs)
        else none
      | [] => none
    else if 224 ≤ b && b ≤ 239 then
      match rest with
      | c1 :: c2 :: rest2 =>
        if utf8_cont1_3 b c1 && is_cont c2 then
          (utf8_decode_fuel fuel rest2).map (fun cs =>
            Char.ofNat ((b - 224) * 4096 + (c1 - 128) * 64 + (c2 - 128)) :: cs)
        else none
      | _ => none
    else if 240 ≤ b && b ≤ 244 then
      match rest with
      | c1 :: c2 :: c3 :: rest2 =>
        if utf8_cont1_4 b c1 && is_cont c2 && is_cont c3 then
          (utf8_decode_fuel fuel rest2).map (fun cs =>
            Char.ofNat ((b - 240) * 262144 + (c1 - 128) * 4096 + (c2 - 128) * 64 + (c3 - 128)) :: cs)
        else none
      | _ => none
    else none

/-- UTF-8 validation and decoding of a byte list (see
`utf8_decode_fuel`). -/
def utf8_decode (l : List Nat) : Option RStr := utf8_decode_fuel l.length l

/-- One line's `next_line` outcome: non-UTF-8 bytes are the I/O error. -/
def decode_line (l : List Nat) : LineEvent :=
  match utf8_decode l with
  | some cs => Except.ok cs
  | none => Except.error ()

/-- The line events `h1::read` sees on a byte stream. -/
def rust_lines (bs : List Nat) : List LineEvent :=
  (raw_lines bs).map decode_line

/-- `DEFAULT_MAX_HEADERS_SIZE` from `src/server.rs` line 19. -/
def DEFAULT_MAX_HEADERS_SIZE : Nat := 65536

/-- `h1::read((&mut conn).take(max_headers_size))` as called by the
connection loop (`src/server.rs` line 67): parsing sees only the first
`max_headers_size` bytes of the connection. -/
def server_read_request (bs : List Nat) (max_headers_size : Nat) :
    Except HttpRequestError HttpRequest :=
  h1_read (rust_lines (bs.take max_headers_size))

/-- What the connection loop does with the parse result (`src/server.rs`
lines 68-78): an `Io` error propagates with no response (the connection
task drops it); any other parse error is answered with a single
`400 Bad Request` page and the connection is shut down; a parsed request
proceeds to the service's `filter`/`request` steps. -/
inductive ConnStep where
  | dropNoResponse
  | respondAndClose (code : Nat)
  | continueToService (req : HttpRequest)
deriving DecidableEq, Repr

/-- The parse branch of `handle_connection` (`src/server.rs` lines
68-78). -/
def handle_parse : Except HttpRequestError HttpRequest → ConnStep
  | .error .Io => .dropNoResponse
  | .error _ => .respondAndClose 400
  | .ok req => .continueToService req

/-!
## Theorems

Helper lemmas first, then one theorem per verified claim (with witness
or counterexample theorems where applicable).
-/

theorem step_limit_bound (s : EmitContinue) (op : BodyOp) :
    (s.step op).1.length + (s.step op).2.limit ≤ s.limit := by
  cases op with
  | readOp n =>
    simp [EmitContinue.step, EmitContinue.poll_read, List.length_take]
    try omega
  | fillBufOp => simp [EmitContinue.step]
  | consumeOp n =>
    simp [EmitContinue.step, EmitContinue.consume, List.length_take]
    try omega

theorem run_limit_bound (ops : List BodyOp) (s : EmitContinue) :
    (s.run ops).1.length + (s.run ops).2.limit ≤ s.limit := by
  induction ops generalizing s with
  | nil => simp [EmitContinue.run]
  | cons op ops ih =>
    have h1 := step_limit_bound s op
    have h2 := ih (s.step op).2
    simp only [EmitContinue.run, List.length_append]
    omega

theorem poll_read_limit_zero (s : EmitContinue) (h : s.limit = 0) (n : Nat) :
    (s.poll_read n).1 = [] := by
  simp [EmitContinue.poll_read, h]

theorem fill_buf_limit_zero (s : EmitContinue) (h : s.limit = 0) :
    s.fill_buf = [] := by
  simp [EmitContinue.fill_buf, h]

/-- C1: for every request with declared body length `len`, every
sequence of operations a handler performs on the body reader handed to
it by the connection state machine yields at most `len` bytes in total,
and once exactly `len` bytes have been yielded the reader reports
end-of-data (reads return no bytes and `fill_buf` is empty), no matter
how many further bytes are buffered or pending on the underlying
connection (`input` is arbitrary). -/
theorem C1_body_length_cap (input : List Nat) (len : Nat) (expect : Bool)
    (ops : List BodyOp) :
    ((mkBody input len expect).run ops).1.length ≤ len ∧
    (((mkBody input len expect).run ops).1.length = len →
      (∀ n, (((mkBody input len expect).run ops).2.poll_read n).1 = []) ∧
      ((mkBody input len expect).run ops).2.fill_buf = []) := by
  have hb := run_limit_bound ops (mkBody input len expect)
  have hlim : (mkBody input len expect).limit = len := rfl
  rw [hlim] at hb
  refine ⟨by omega, fun hfull => ?_⟩
  have hzero : ((mkBody input len expect).run ops).2.limit = 0 := by omega
  exact ⟨poll_read_limit_zero _ hzero, fill_buf_limit_zero _ hzero⟩

/-- Witness for C1 at a concrete input: a 3-byte body with 5 bytes
pending; after reads yield the 3 body bytes, reads and `fill_buf`
report end-of-data. -/
theorem C1_witness :
    ((mkBody [1, 2, 3, 4, 5] 3 true).run [BodyOp.readOp 2, BodyOp.readOp 10]).1.length ≤ 3 ∧
    (((mkBody [1, 2, 3, 4, 5] 3 true).run [BodyOp.readOp 2, BodyOp.readOp 10]).2.poll_read 4).1 = [] ∧
    ((mkBody [1, 2, 3, 4, 5] 3 true).run [BodyOp.readOp 2, BodyOp.readOp 10]).2.fill_buf = [] := by
  have h := C1_body_length_cap [1, 2, 3, 4, 5] 3 true [BodyOp.readOp 2, BodyOp.readOp 10]
  exact ⟨h.1, (h.2 (by decide)).1 4, (h.2 (by decide)).2⟩

/-- C2: after a response is obtained, the connection-persistence
decision of `handle_connection`: leftover unread body bytes or an
HTTP/1.0 request force a `Connection: close` header and end the loop;
an HTTP/1.x (x ≠ 0) request with a fully drained body keeps the
connection open if and only if the client sent
`Connection: keep-alive`, otherwise `Connection: close` is added and
the loop ends. -/
theorem C2_connection_persistence (leftover : Nat) (v : HttpVersion) (ka : Bool)
    (hmaj : v.major = 1) :
    (leftover ≠ 0 ∨ v.minor = 0 →
      persist_decision leftover v ka =
        { connection_close := true, header := some ("Connection", "close") }) ∧
    (leftover = 0 → v.minor ≠ 0 →
      persist_decision leftover v ka =
        if ka then
          { connection_close := false, header := some ("Connection", "keep-alive") }
        else
          { connection_close := true, header := some ("Connection", "close") }) := by
  obtain ⟨ma, mi⟩ := v
  simp only [HttpVersion.major] at hmaj
  subst hmaj
  constructor
  · rintro (h | h)
    · simp [persist_decision, h]
    · simp only [HttpVersion.minor] at h
      subst h
      simp [persist_decision, HttpVersion.is]
  · intro h0 hmi
    simp only [HttpVersion.minor] at hmi
    have : ((⟨1, mi⟩ : HttpVersion).is 1 0) = false := by
      simp [HttpVersion.is]
      omega
    cases ka <;> simp [persist_decision, h0, this]

/-- Witness for C2: an HTTP/1.1 request with drained body keeps the
connection open exactly when keep-alive was requested, and HTTP/1.0
closes. -/
theorem C2_witness :
    persist_decision 0 ⟨1, 1⟩ true =
      { connection_close := false, header := some ("Connection", "keep-alive") } ∧
    persist_decision 0 ⟨1, 1⟩ false =
      { connection_close := true, header := some ("Connection", "close") } ∧
    persist_decision 0 ⟨1, 0⟩ true =
      { connection_close := true, header := some ("Connection", "close") } ∧
    persist_decision 7 ⟨1, 1⟩ true =
      { connection_close := true, header := some ("Connection", "close") } := by
  refine ⟨?_, ?_, ?_, ?_⟩
  · exact ((C2_connection_persistence 0 ⟨1, 1⟩ true rfl).2 rfl (by decide)).trans (by decide)
  · exact ((C2_connection_persistence 0 ⟨1, 1⟩ false rfl).2 rfl (by decide)).trans (by decide)
  · exact (C2_connection_persistence 0 ⟨1, 0⟩ true rfl).1 (Or.inr rfl)
  · exact (C2_connection_persistence 7 ⟨1, 1⟩ true rfl).1 (Or.inl (by decide))

theorem step_written_stable (s : EmitContinue) (op : BodyOp) (h : s.to_send = []) :
    (s.step op).2.written = s.written ∧ (s.step op).2.to_send = [] := by
  cases op with
  | readOp n => simp [EmitContinue.step, EmitContinue.poll_read, h]
  | fillBufOp => simp [EmitContinue.step, h]
  | consumeOp n => simp [EmitContinue.step, EmitContinue.consume, h]

theorem run_written_stable (ops : List BodyOp) (s : EmitContinue) (h : s.to_send = []) :
    (s.run ops).2.written = s.written ∧ (s.run ops).2.to_send = [] := by
  induction ops generalizing s with
  | nil => simp [EmitContinue.run, h]
  | cons op ops ih =>
    have hstep := step_written_stable s op h
    have hrest := ih (s.step op).2 hstep.2
    simp only [EmitContinue.run]
    exact ⟨hstep.1 ▸ hrest.1, hrest.2⟩

theorem poll_read_flush (s : EmitContinue) (n : Nat) :
    (s.poll_read n).2.written = s.written ++ s.to_send ∧
    (s.poll_read n).2.to_send = [] ∧
    (s.poll_read n).1 = s.input.take (min n (min s.limit s.input.length)) := by
  simp [EmitContinue.poll_read]

/-- C3 (counterexample): a request carrying `Expect: 100-continue`
builds a body reader with the preamble pending, but a handler that
consumes the entire 3-byte body through the `AsyncBufRead` interface
(`fill_buf` + `consume`) sees the body bytes while nothing — in
particular no `100 Continue` preamble — is ever written to the
connection, refuting the claim for that way of reading. -/
theorem C3_counterexample :
    (mkBody [1, 2, 3, 4, 5] 3 true).to_send = continue_preamble ∧
    continue_preamble ≠ [] ∧
    (mkBody [1, 2, 3, 4, 5] 3 true).fill_buf = [1, 2, 3] ∧
    ((mkBody [1, 2, 3, 4, 5] 3 true).consume 3).written = [] ∧
    ((mkBody [1, 2, 3, 4, 5] 3 true).consume 3).limit = 0 := by
  decide

/-- C3 (amended): for a request carrying `Expect: 100-continue`, nothing
is written at parse time and nothing is written if the handler performs
no operations; the first `poll_read` — reads through the `AsyncRead`
interface — flushes the full `100 Continue` preamble onto the
connection before yielding bytes, yields only connection body bytes,
and the preamble is emitted only once (no later operation extends the
wire output); without the `Expect` header nothing is ever emitted.
Reads through the `AsyncBufRead` interface (`fill_buf`/`consume`)
bypass the preamble entirely (see the counterexample). -/
theorem C3_continue_lazy_emission (input : List Nat) (len : Nat) :
    (mkBody input len true).written = [] ∧
    (mkBody input len true).to_send = continue_preamble ∧
    (∀ ops, ((mkBody input len false).run ops).2.written = []) ∧
    (∀ n,
      ((mkBody input len true).poll_read n).2.written = continue_preamble ∧
      ((mkBody input len true).poll_read n).1 =
        input.take (min n (min len input.length)) ∧
      (∀ ops, ((((mkBody input len true).poll_read n).2).run ops).2.written =
        continue_preamble)) := by
  refine ⟨rfl, rfl, ?_, ?_⟩
  · intro ops
    exact (run_written_stable ops (mkBody input len false) rfl).1
  · intro n
    have hf := poll_read_flush (mkBody input len true) n
    refine ⟨?_, hf.2.2, ?_⟩
    · exact hf.1
    · intro ops
      have := run_written_stable ops ((mkBody input len true).poll_read n).2 hf.2.1
      rw [this.1, hf.1]
      rfl

/-- C4: byte-range handling of `file`.  Whenever the `Range` header
parses to `(s, e)` (absent start = 0, absent end = `u64::MAX`), the
request is rejected with 416 exactly when `s` exceeds the file length or
`s > e` — regardless of any If-Modified-Since state — and otherwise
(shown here for requests without a matching `If-Modified-Since`) `e` is
clamped to the file length, the file is seeked to `s`, the delivered
length field becomes `e − s + 1`, the status becomes 206 and a
`Content-Range: bytes <s>-<e>/<L>` header is appended. -/
theorem C4_byte_range (L : Nat) (lm dn : Option RStr) (r : RStr) (s e : Nat)
    (hp : parse_range r = some (s, e)) :
    (∀ mt ims, s > L ∨ s > e →
      file L mt lm dn (some r) ims = Except.error 416) ∧
    (s ≤ L → s ≤ e →
      file L none lm dn (some r) none = Except.ok
        { code := 206
          headers := file_base_headers lm dn ++
            [(str "Content-Range", content_range_value s (min e L) L)]
          body := .File (min e L - s + 1)
          seek := s }) := by
  constructor
  · intro mt ims h
    have hc : (decide (s ≤ L) && decide (s ≤ e)) = false := by
      rcases h with h | h
      · simp [Nat.not_le.2 h]
      · simp [Nat.not_le.2 h]
    simp [file, hp, hc]
  · intro h1 h2
    have hc : (decide (s ≤ L) && decide (s ≤ e)) = true := by simp [h1, h2]
    simp [file, hp, hc, ims_override]

/-- Witness for C4: on a 500-byte file, `Range: bytes=0-99` yields 206
with `Content-Range: bytes 0-99/500`, a 100-byte delivered length and
exactly 100 bytes put on the wire, while `Range: bytes=1000-` yields
416. -/
theorem C4_witness :
    file 500 none none none (some (str "bytes=0-99")) none = Except.ok
      { code := 206
        headers := [(str "Accept-Ranges", str "bytes"),
                    (str "Content-Range", str "bytes 0-99/500")]
        body := .File 100
        seek := 0 } ∧
    delivered_bytes 500 0 100 = 100 ∧
    file 500 none none none (some (str "bytes=1000-")) none = Except.error 416 := by
  have h1 := (C4_byte_range 500 none none (str "bytes=0-99") 0 99 (by decide)).2
    (by decide) (by decide)
  have h2 := (C4_byte_range 500 none none (str "bytes=1000-") 1000 u64MAX
    (by decide)).1 none none (Or.inl (by decide))
  exact ⟨h1.trans (by rfl), by decide, h2⟩

/-- C5 (code evaluation at the failing input): on a 500-byte file whose
modification time is 100s with an `If-Modified-Since` parsing to 100,
the source processes the `Range` header first: `Range: bytes=0-99`
produces a 304 that still carries `Content-Range: bytes 0-99/500` (and
has already seeked), and `Range: bytes=1000-` produces 416 instead of
the claimed 304 short-circuit; without a `Range` header the claimed
304/empty-body/no-Content-Range behavior does hold. -/
theorem C5_code_behavior :
    file 500 (some 100) none none (some (str "bytes=0-99")) (some 100) = Except.ok
      { code := 304
        headers := [(str "Accept-Ranges", str "bytes"),
                    (str "Content-Range", str "bytes 0-99/500")]
        body := .Empty
        seek := 0 } ∧
    file 500 (some 100) none none (some (str "bytes=1000-")) (some 100) =
      Except.error 416 ∧
    file 500 (some 100) none none none (some 100) = Except.ok
      { code := 304
        headers := [(str "Accept-Ranges", str "bytes")]
        body := .Empty
        seek := 0 } := by
  refine ⟨rfl, rfl, rfl⟩

/-- C6 (counterexample): with nested routes `/a/` then `/a/b/`
registered, request `/a/b/c` is dispatched to the `/a/` service with
child route `/b/c` although `/a/b` is a longer structurally-valid
prefix — the scan takes the first match in insertion order, not the
longest; and with nested route `/b/` registered, request `/b?x=1` is a
404 — the query-string suffix is stripped only for exact matching, not
before the nested scan. -/
theorem C6_counterexample :
    Router.find (((Router.mk [] []).add (str "/a/") 0).add (str "/a/b/") 1)
      (str "/a/b/c") = some (str "/b/c", 0) ∧
    structurally_valid_match (str "/a/b") (str "/a/b/c") = true ∧
    (str "/a").length < (str "/a/b").length ∧
    Router.find ((Router.mk [] []).add (str "/b/") 0) (str "/b?x=1") = none ∧
    Router.request ((Router.mk [] []).add (str "/b/") 0) (str "/b?x=1") =
      Except.error 404 := by
  exact ⟨rfl, by decide, by decide, rfl, rfl⟩

/-- C6 (amended): router resolution strips the query-string suffix for
the exact lookup only; an exact match dispatches with the original
route; otherwise the nested routes are scanned in insertion order on
the unstripped route and the first structurally-valid prefix match
(prefix followed by end-of-string or `/`) wins, forwarding the
remaining suffix (or `/` if nothing remains); no match yields 404.  The
claim's concrete examples hold: with exact route `/a` and nested route
`/b/`, request `/a` goes to the exact handler with the original route,
`/b/c` goes to the nested handler with route `/c`, and `/ab` matches
neither. -/
theorem C6_router_resolution :
    (∀ (rt : Router) (route : RStr) (svc : Nat),
      lookup_exact rt.exact (strip_params route) = some svc →
      Router.find rt route = some (route, svc)) ∧
    (∀ (p : RStr) (svc : Nat) (rest : List (RStr × Nat)) (route : RStr),
      structurally_valid_match p route = true →
      find_nested ((p, svc) :: rest) route = some (forwarded_route p route, svc)) ∧
    (∀ (p : RStr) (svc : Nat) (rest : List (RStr × Nat)) (route : RStr),
      structurally_valid_match p route = false →
      find_nested ((p, svc) :: rest) route = find_nested rest route) ∧
    (∀ (rt : Router) (route : RStr),
      Router.find rt route = none → Router.request rt route = Except.error 404) ∧
    (Router.find (((Router.mk [] []).add (str "/a") 0).add (str "/b/") 1)
        (str "/a") = some (str "/a", 0) ∧
     Router.find (((Router.mk [] []).add (str "/a") 0).add (str "/b/") 1)
        (str "/b/c") = some (str "/c", 1) ∧
     Router.find (((Router.mk [] []).add (str "/a") 0).add (str "/b/") 1)
        (str "/ab") = none ∧
     Router.request (((Router.mk [] []).add (str "/a") 0).add (str "/b/") 1)
        (str "/ab") = Except.error 404) := by
  refine ⟨?_, ?_, ?_, ?_, rfl, rfl, rfl, rfl⟩
  · intro rt route svc h
    simp [Router.find, h]
  · intro p svc rest route h
    simp only [structurally_valid_match, Bool.and_eq_true] at h
    obtain ⟨hpre, hrest⟩ := h
    have hlen : p.length ≤ route.length :=
      (List.isPrefixOf_iff_prefix.1 hpre).length_le
    by_cases heq : route.length = p.length
    · have hdrop : route.drop p.length = [] := List.drop_eq_nil_iff.2 heq.le
      simp [find_nested, hpre, hdrop, forwarded_route, heq]
    · have hlt : p.length < route.length :=
        lt_of_le_of_ne hlen (fun hx => heq hx.symm)
      have hdrop : route.drop p.length ≠ [] := by
        rw [Ne, List.drop_eq_nil_iff]
        omega
      rcases hm : route.drop p.length with _ | ⟨c, tl⟩
      · exact absurd hm hdrop
      · rw [Bool.or_eq_true] at hrest
        rcases hrest with hb | hb
        · exact absurd (by simpa using hb : route.length = p.length) heq
        · rw [hm] at hb
          have hc : c = '/' := by simpa using hb
          subst hc
          simp [find_nested, hpre, hm, forwarded_route, heq]
  · intro p svc rest route h
    by_cases hpre : p.isPrefixOf route = true
    · simp only [structurally_valid_match, hpre, Bool.true_and,
        Bool.or_eq_false_iff] at h
      obtain ⟨hb, hc⟩ := h
      have hlen : p.length ≤ route.length :=
        (List.isPrefixOf_iff_prefix.1 hpre).length_le
      have heq : route.length ≠ p.length := by
        intro hx
        rw [hx] at hb
        simp at hb
      have hdrop : route.drop p.length ≠ [] := by
        rw [Ne, List.drop_eq_nil_iff]
        omega
      rcases hm : route.drop p.length with _ | ⟨c, tl⟩
      · exact absurd hm hdrop
      · rw [hm] at hc
        have hc2 : c ≠ '/' := by simpa using hc
        simp [find_nested, hpre, hm, hc2]
    · have hpre2 : p.isPrefixOf route = false := by
        cases hx : p.isPrefixOf route
        · rfl
        · exact absurd hx hpre
      simp [find_nested, hpre2]
  · intro rt route h
    simp [Router.request, h]

/-- Witness for C6 at concrete inputs: the first structurally-valid
nested entry wins with the forwarded suffix, a non-matching head entry
is skipped, an exact hit dispatches with the original route, and a miss
is a 404. -/
theorem C6_witness :
    find_nested [(str "/b", 1)] (str "/b/c") = some (str "/c", 1) ∧
    find_nested [(str "/x", 0), (str "/b", 1)] (str "/b/c") =
      find_nested [(str "/b", 1)] (str "/b/c") ∧
    Router.find { exact := [(str "/a", 0)], nested := [] } (str "/a?q=1") =
      some (str "/a?q=1", 0) ∧
    Router.request { exact := [], nested := [] } (str "/nope") =
      Except.error 404 := by
  refine ⟨?_, ?_, ?_, ?_⟩
  · exact (C6_router_resolution.2.1 (str "/b") 1 [] (str "/b/c")
      (by decide)).trans (by decide)
  · exact C6_router_resolution.2.2.1 (str "/x") 0 [(str "/b", 1)] (str "/b/c")
      (by decide)
  · exact C6_router_resolution.1 { exact := [(str "/a", 0)], nested := [] }
      (str "/a?q=1") 0 (by decide)
  · exact C6_router_resolution.2.2.2.1 { exact := [], nested := [] }
      (str "/nope") (by decide)

theorem status_line_not_cl (code : Nat) :
    is_content_length_line (str "HTTP/1.1 " ++ natStr code ++ str " " ++ as_str code) =
      false := rfl

theorem ct_line_not_cl (ct : RStr) :
    is_content_length_line (str "Content-Type: " ++ ct) = false := rfl

theorem cl_line_is_cl (tail : RStr) :
    is_content_length_line (str "Content-Length: " ++ tail) = true := rfl

theorem send_head_front_countP (code : Nat) (headers : List (RStr × RStr)) (ct : RStr)
    (hh : ∀ h ∈ headers, is_content_length_line (h.1 ++ str ": " ++ h.2) = false) :
    ((str "HTTP/1.1 " ++ natStr code ++ str " " ++ as_str code)
      :: (headers.map (fun h => h.1 ++ str ": " ++ h.2)
        ++ (if ct.isEmpty then [] else [str "Content-Type: " ++ ct]))).countP
      is_content_length_line = 0 := by
  have h1 : (headers.map (fun h => h.1 ++ str ": " ++ h.2)).countP
      is_content_length_line = 0 := by
    rw [List.countP_eq_zero]
    intro a ha
    obtain ⟨h, hmem, rfl⟩ := List.mem_map.1 ha
    intro hc
    have hf := hh h hmem
    simp only [List.append_assoc] at hf hc
    rw [hf] at hc
    exact Bool.noConfusion hc
  have h2 : (if ct.isEmpty then ([] : List RStr)
      else [str "Content-Type: " ++ ct]).countP is_content_length_line = 0 := by
    split
    · rfl
    · simp [List.countP_cons, ct_line_not_cl]
  rw [List.countP_cons, List.countP_append, status_line_not_cl, h1, h2]
  simp

/-- C7: in the serialized response head, a computed `Content-Length`
line whose value is the body length appears exactly when the body is
`Bytes` (in-memory) or `File` — one such line, none for `Empty` or
`Upgrade` — provided the caller-supplied headers do not themselves
smuggle in a `Content-Length` line (the engine owns this header). -/
theorem C7_content_length_emission (res : HttpResponse)
    (hh : ∀ h ∈ res.headers, is_content_length_line (h.1 ++ str ": " ++ h.2) = false) :
    (∀ bytes, res.body = .Bytes bytes →
      (send_head res).countP is_content_length_line = 1 ∧
      (str "Content-Length: " ++ natStr bytes.length) ∈ send_head res) ∧
    (∀ n, res.body = .File n →
      (send_head res).countP is_content_length_line = 1 ∧
      (str "Content-Length: " ++ natStr n) ∈ send_head res) ∧
    (res.body = .Empty ∨ res.body = .Upgrade →
      (send_head res).countP is_content_length_line = 0) := by
  obtain ⟨code, headers, ct, body⟩ := res
  simp only at hh
  have hfront := send_head_front_countP code headers ct hh
  refine ⟨?_, ?_, ?_⟩
  · rintro bytes rfl
    constructor
    · simp only [send_head]
      rw [show ((str "HTTP/1.1 " ++ natStr code ++ str " " ++ as_str code)
          :: (headers.map (fun h => h.1 ++ str ": " ++ h.2)
            ++ (if ct.isEmpty then [] else [str "Content-Type: " ++ ct])
            ++ [str "Content-Length: " ++ natStr bytes.length])) =
          ((str "HTTP/1.1 " ++ natStr code ++ str " " ++ as_str code)
          :: (headers.map (fun h => h.1 ++ str ": " ++ h.2)
            ++ (if ct.isEmpty then [] else [str "Content-Type: " ++ ct])))
          ++ [str "Content-Length: " ++ natStr bytes.length] by simp]
      rw [List.countP_append, hfront]
      simp [List.countP_cons, cl_line_is_cl]
    · simp [send_head]
  · rintro n rfl
    constructor
    · simp only [send_head]
      rw [show ((str "HTTP/1.1 " ++ natStr code ++ str " " ++ as_str code)
          :: (headers.map (fun h => h.1 ++ str ": " ++ h.2)
            ++ (if ct.isEmpty then [] else [str "Content-Type: " ++ ct])
            ++ [str "Content-Length: " ++ natStr n])) =
          ((str "HTTP/1.1 " ++ natStr code ++ str " " ++ as_str code)
          :: (headers.map (fun h => h.1 ++ str ": " ++ h.2)
            ++ (if ct.isEmpty then [] else [str "Content-Type: " ++ ct])))
          ++ [str "Content-Length: " ++ natStr n] by simp]
      rw [List.countP_append, hfront]
      simp [List.countP_cons, cl_line_is_cl]
    · simp [send_head]
  · rintro (rfl | rfl) <;>
    · simp only [send_head]
      rw [show ∀ t : List RStr, ((str "HTTP/1.1 " ++ natStr code ++ str " " ++ as_str code)
          :: (headers.map (fun h => h.1 ++ str ": " ++ h.2)
            ++ (if ct.isEmpty then [] else [str "Content-Type: " ++ ct])
            ++ t)) =
          ((str "HTTP/1.1 " ++ natStr code ++ str " " ++ as_str code)
          :: (headers.map (fun h => h.1 ++ str ": " ++ h.2)
            ++ (if ct.isEmpty then [] else [str "Content-Type: " ++ ct])))
          ++ t from fun t => by simp]
      rw [List.countP_append, hfront]
      rfl

/-- Witness for C7: a `Bytes` body of two bytes emits exactly one
`Content-Length: 2` line, an `Empty` body emits none. -/
theorem C7_witness :
    (send_head { code := 200, headers := [(str "X-A", str "y")],
                 content_type := str "text/plain", body := .Bytes [72, 105] }).countP
      is_content_length_line = 1 ∧
    str "Content-Length: 2" ∈
      (send_head
        { code := 200, headers := [(str "X-A", str "y")],
          content_type := str "text/plain", body := .Bytes [72, 105] }) ∧
    (send_head { code := 200, headers := [], content_type := [],
                 body := .Empty }).countP is_content_length_line = 0 := by
  have h1 := C7_content_length_emission
    { code := 200, headers := [(str "X-A", str "y")],
      content_type := str "text/plain", body := .Bytes [72, 105] } (by decide)
  have h2 := C7_content_length_emission
    { code := 200, headers := [], content_type := [], body := .Empty } (by decide)
  exact ⟨(h1.1 [72, 105] rfl).1, (h1.1 [72, 105] rfl).2, h2.2.2 (Or.inl rfl)⟩

/-- C9: on handler failure, `Fatal` shuts the connection down with no
response, `Hidden` produces a bare status-code page, `User` a page from
the error's description; in both response cases the serialized status
code is the original error's `status_code()`, whatever default the page
generator picked; for I/O errors the classification is `Fatal` exactly
for the network-related kinds listed in `is_net`, with not-found-class
kinds mapped to 404 and permission failures to 403. -/
theorem C9_error_classification :
    (∀ (h : ErrorHandlerModel) (e : ErrView), e.etype = .Fatal →
      handle_error h e = none) ∧
    (∀ (h : ErrorHandlerModel) (e : ErrView), e.etype = .Hidden →
      handle_error h e = some { code := e.scode, page := (h.plain_code e.scode).page }) ∧
    (∀ (h : ErrorHandlerModel) (e : ErrView), e.etype = .User →
      handle_error h e = some { code := e.scode, page := (h.error e.desc).page }) ∧
    (∀ (h : ErrorHandlerModel) (e : ErrView) (r : ErrorResponse),
      handle_error h e = some r → r.code = e.scode) ∧
    (∀ k, io_error_type k = .Fatal ↔ is_net k = true) ∧
    (∀ k, is_net k = true ↔
      k = ErrorKind.ConnectionRefused ∨ k = .ConnectionReset ∨
      k = .ConnectionAborted ∨ k = .TimedOut ∨ k = .BrokenPipe ∨
      k = .HostUnreachable ∨ k = .NetworkUnreachable ∨ k = .NotConnected ∨
      k = .AddrInUse ∨ k = .AddrNotAvailable ∨ k = .NetworkDown) ∧
    (io_status_code .NotFound = 404 ∧ io_status_code .NotADirectory = 404 ∧
      io_status_code .PermissionDenied = 403) ∧
    (∀ k text, (io_err_view k text).scode = io_status_code k ∧
      ((io_err_view k text).etype = .Fatal ↔ is_net k = true)) := by
  refine ⟨?_, ?_, ?_, ?_, ?_, ?_, ⟨rfl, rfl, rfl⟩, ?_⟩
  · intro h e he
    simp [handle_error, he]
  · intro h e he
    simp [handle_error, he]
  · intro h e he
    simp [handle_error, he]
  · intro h e r hr
    cases he : e.etype <;> rw [handle_error, he] at hr
    · exact Option.noConfusion hr
    · cases hr2 : (Option.some.inj hr).symm
      rfl
    · cases hr2 : (Option.some.inj hr).symm
      rfl
  · intro k
    cases k <;> simp [io_error_type, is_net]
  · intro k
    cases k <;> simp [is_net]
  · intro k text
    exact ⟨rfl, by cases k <;> simp [io_err_view, io_error_type, is_net]⟩

/-- Witness for C9: a `NotFound` I/O error is classified `User`, gets
the built-in description and a 404 status overriding the generator's
500 default; a `ConnectionReset` I/O error is `Fatal` and the
connection is shut down with no response. -/
theorem C9_witness :
    handle_error ⟨fun _ => ⟨500, "default page"⟩, fun d => ⟨500, d⟩⟩
      (io_err_view .NotFound "os error") =
      some { code := 404, page := "The requested resource was not found on this server" } ∧
    handle_error ⟨fun _ => ⟨500, "default page"⟩, fun d => ⟨500, d⟩⟩
      (io_err_view .ConnectionReset "os error") = none := by
  constructor
  · exact (C9_error_classification.2.2.1
      ⟨fun _ => ⟨500, "default page"⟩, fun d => ⟨500, d⟩⟩
      (io_err_view .NotFound "os error") rfl).trans rfl
  · exact C9_error_classification.1
      ⟨fun _ => ⟨500, "default page"⟩, fun d => ⟨500, d⟩⟩
      (io_err_view .ConnectionReset "os error") rfl

theorem split_on_pred_ne_nil (p : Char → Bool) (l : RStr) : split_on_pred p l ≠ [] := by
  cases l with
  | nil => simp [split_on_pred]
  | cons x rest =>
    simp only [split_on_pred]
    split
    · simp
    · split <;> simp

theorem split_on_pred_singleton (p : Char → Bool) (l b : RStr) :
    split_on_pred p l = [b] ↔ l = b ∧ ∀ c ∈ b, p c = false := by
  induction l generalizing b with
  | nil =>
    constructor
    · intro h
      have hb : ([] : RStr) = b := (List.cons_eq_cons.1 h).1
      subst hb
      exact ⟨rfl, by simp⟩
    · rintro ⟨rfl, _⟩
      rfl
  | cons x rest ih =>
    by_cases hx : p x = true
    · constructor
      · intro h
        simp only [split_on_pred, hx, if_true] at h
        exact absurd (List.cons_eq_cons.1 h).2 (split_on_pred_ne_nil p rest)
      · rintro ⟨rfl, hclean⟩
        have hfx := hclean x (by simp)
        rw [hfx] at hx
        exact Bool.noConfusion hx
    · have hx2 : p x = false := by
        cases hpx : p x
        · rfl
        · exact absurd hpx hx
      rcases hsp : split_on_pred p rest with _ | ⟨g, gs⟩
      · exact absurd hsp (split_on_pred_ne_nil p rest)
      · have hred : split_on_pred p (x :: rest) = (x :: g) :: gs := by
          simp only [split_on_pred, hx2, hsp]
          simp
        rw [hred]
        constructor
        · intro h
          obtain ⟨hb, hgs⟩ := List.cons_eq_cons.1 h
          have hsingle : split_on_pred p rest = [g] := by rw [hsp, hgs]
          obtain ⟨hrest, hcleang⟩ := (ih g).1 hsingle
          subst hrest
          refine ⟨hb.symm ▸ rfl, ?_⟩
          rw [← hb]
          intro c hc
          rcases List.mem_cons.1 hc with rfl | hc
          · exact hx2
          · exact hcleang c hc
        · rintro ⟨rfl, hclean⟩
          have hsingle : split_on_pred p rest = [rest] :=
            (ih rest).2 ⟨rfl, fun c hc => hclean c (List.mem_cons_of_mem x hc)⟩
          rw [hsp] at hsingle
          obtain ⟨hg, hgs⟩ := List.cons_eq_cons.1 hsingle
          rw [hg, hgs]

theorem split_on_pred_pair (p : Char → Bool) (l a b : RStr) :
    split_on_pred p l = [a, b] ↔
    ∃ d, l = a ++ d :: b ∧ p d = true ∧ (∀ c ∈ a, p c = false) ∧
      (∀ c ∈ b, p c = false) := by
  induction l generalizing a with
  | nil =>
    constructor
    · intro h
      exact absurd (List.cons_eq_cons.1 h).2 (by simp)
    · rintro ⟨d, hd, -⟩
      exact absurd hd.symm (by simp)
  | cons x rest ih =>
    by_cases hx : p x = true
    · constructor
      · intro h
        simp only [split_on_pred, hx, if_true] at h
        obtain ⟨ha, htl⟩ := List.cons_eq_cons.1 h
        obtain ⟨hrest, hclean⟩ := (split_on_pred_singleton p rest b).1 htl
        subst hrest
        exact ⟨x, by rw [← ha]; simp, hx, by rw [← ha]; simp, hclean⟩
      · rintro ⟨d, hd, hpd, hca, hcb⟩
        cases a with
        | cons a0 atl =>
          obtain ⟨hax, -⟩ := List.cons_eq_cons.1 (by simpa using hd)
          have hfa := hca a0 (by simp)
          rw [← hax] at hfa
          rw [hfa] at hx
          exact Bool.noConfusion hx
        | nil =>
          obtain ⟨hdx, hrb⟩ := List.cons_eq_cons.1 (by simpa using hd)
          simp only [split_on_pred, hx, if_true]
          have : split_on_pred p rest = [b] :=
            (split_on_pred_singleton p rest b).2 ⟨hrb, hcb⟩
          rw [this]
    · have hx2 : p x = false := by
        cases hpx : p x
        · rfl
        · exact absurd hpx hx
      rcases hsp : split_on_pred p rest with _ | ⟨g, gs⟩
      · exact absurd hsp (split_on_pred_ne_nil p rest)
      · have hred : split_on_pred p (x :: rest) = (x :: g) :: gs := by
          simp only [split_on_pred, hx2, hsp]
          simp
        rw [hred]
        constructor
        · intro h
          obtain ⟨ha, hgs⟩ := List.cons_eq_cons.1 h
          have hpairr : split_on_pred p rest = [g, b] := by rw [hsp, hgs]
          obtain ⟨d, hrest, hpd, hcg, hcb⟩ := (ih g).1 hpairr
          refine ⟨d, ?_, hpd, ?_, hcb⟩
          · rw [← ha, hrest]
            rfl
          · rw [← ha]
            intro c hc
            rcases List.mem_cons.1 hc with rfl | hc
            · exact hx2
            · exact hcg c hc
        · rintro ⟨d, hd, hpd, hca, hcb⟩
          cases a with
          | nil =>
            obtain ⟨hdx, -⟩ := List.cons_eq_cons.1 (by simpa using hd)
            rw [hdx] at hx2
            rw [hpd] at hx2
            exact Bool.noConfusion hx2
          | cons a0 atl =>
            obtain ⟨hax, hrest⟩ := List.cons_eq_cons.1 (by simpa using hd)
            have hpairr : split_on_pred p rest = [atl, b] :=
              (ih atl).2 ⟨d, hrest, hpd, fun c hc => hca c (by simp [hc]), hcb⟩
            rw [hsp] at hpairr
            obtain ⟨hg, hgs⟩ := List.cons_eq_cons.1 hpairr
            rw [hg, hgs, hax]

theorem parse_ver_characterization (ver : RStr) (a b : Nat) :
    parse_ver ver = some ⟨a, b⟩ ↔
    ∃ ma mi, ver = str "HTTP/" ++ (ma ++ '.' :: mi) ∧
      rust_parse_uint 255 ma = some a ∧ rust_parse_uint 255 mi = some b ∧
      (∀ c ∈ ma, (c == '.') = false) ∧ (∀ c ∈ mi, (c == '.') = false) := by
  constructor
  · intro h
    by_cases hpre : (str "HTTP/").isPrefixOf ver = true
    · obtain ⟨t, ht⟩ := List.isPrefixOf_iff_prefix.1 hpre
      subst ht
      have hdrop : (str "HTTP/" ++ t).drop 5 = t := rfl
      rcases hso : splitOnChar '.' t with _ | ⟨ma, _ | ⟨mi, _ | ⟨x3, tl3⟩⟩⟩
      · simp [parse_ver, hpre, hdrop, hso] at h
      · simp [parse_ver, hpre, hdrop, hso] at h
      · rcases hma : rust_parse_uint 255 ma with _ | a2 <;>
          rcases hmi : rust_parse_uint 255 mi with _ | b2 <;>
          simp [parse_ver, hpre, hdrop, hso, hma, hmi] at h
        obtain ⟨ha2, hb2⟩ := h
        obtain ⟨d, hts, hpd, hcma, hcmi⟩ :=
          (split_on_pred_pair (fun x => x == '.') t ma mi).1 hso
        have hd2 : d = '.' := eq_of_beq hpd
        subst hd2
        exact ⟨ma, mi, by rw [hts], ha2 ▸ hma, hb2 ▸ hmi, hcma, hcmi⟩
      · simp [parse_ver, hpre, hdrop, hso] at h
    · simp [parse_ver, hpre] at h
  · rintro ⟨ma, mi, rfl, hma, hmi, hca, hcb⟩
    have hpre : (str "HTTP/").isPrefixOf (str "HTTP/" ++ (ma ++ '.' :: mi)) = true :=
      List.isPrefixOf_iff_prefix.2 ⟨_, rfl⟩
    have hdrop : (str "HTTP/" ++ (ma ++ '.' :: mi)).drop 5 = ma ++ '.' :: mi := rfl
    have hsplit : splitOnChar '.' (ma ++ '.' :: mi) = [ma, mi] :=
      (split_on_pred_pair (fun x => x == '.') (ma ++ '.' :: mi) ma mi).2
        ⟨'.', rfl, rfl, hca, hcb⟩
    simp [parse_ver, hpre, hdrop, hsplit, hma, hmi]

/-- C8 (counterexample): `parse_ver` parses the version token through
`u8` integer parsing, so `HTTP/+1.1` (a sign, not a digit) and
`HTTP/12.3` (multi-digit components) are accepted and the request
succeeds rather than failing with `InvalidVersion`. -/
theorem C8_counterexample :
    h1_read [Except.ok (str "GET / HTTP/+1.1"), Except.ok (str "")] =
      Except.ok { method := .Get, route := str "/", version := ⟨1, 1⟩,
                  headers := [], len := 0 } ∧
    h1_read [Except.ok (str "GET / HTTP/12.3"), Except.ok (str "")] =
      Except.ok { method := .Get, route := str "/", version := ⟨12, 3⟩,
                  headers := [], len := 0 } := by
  exact ⟨rfl, rfl⟩

/-- C8 (amended): a request line whose whitespace-token count is not
exactly 3 fails as `InvalidPrelude`; a token count of 3 with a version
token `parse_ver` rejects fails as `InvalidVersion`; the version token
is accepted exactly when it is `HTTP/` followed by two `.`-separated
components, each parsing as a `u8` (decimal digits with an optional
leading `+`, value at most 255 — not necessarily a single digit);
neither failure is `Io`. -/
theorem C8_request_line_errors (first : RStr) (rest : List LineEvent) :
    ((split_whitespace first).length ≠ 3 →
      h1_read (Except.ok first :: rest) = Except.error .InvalidPrelude) ∧
    (∀ m r v, split_whitespace first = [m, r, v] → parse_ver v = none →
      h1_read (Except.ok first :: rest) = Except.error .InvalidVersion) ∧
    (∀ ver a b, parse_ver ver = some ⟨a, b⟩ ↔
      ∃ ma mi, ver = str "HTTP/" ++ (ma ++ '.' :: mi) ∧
        rust_parse_uint 255 ma = some a ∧ rust_parse_uint 255 mi = some b ∧
        (∀ c ∈ ma, (c == '.') = false) ∧ (∀ c ∈ mi, (c == '.') = false)) ∧
    (HttpRequestError.InvalidPrelude ≠ .Io ∧ HttpRequestError.InvalidVersion ≠ .Io) := by
  refine ⟨?_, ?_, parse_ver_characterization, by decide, by decide⟩
  · intro hlen
    have h3 : split3 first = none := by
      rw [split3]
      rcases hsw : split_whitespace first with _ | ⟨m, _ | ⟨r, _ | ⟨v, _ | ⟨w, tl⟩⟩⟩⟩
      · rfl
      · rfl
      · rfl
      · exact absurd (by rw [hsw]; rfl) hlen
      · rfl
    simp [h1_read, h3]
  · intro m r v hsw hv
    have h3 : split3 first = some (m, r, v) := by
      rw [split3]
      rw [hsw]
    simp [h1_read, h3, hv]

/-- Witness for C8: a 2-token request line is `InvalidPrelude`, a
3-component version is `InvalidVersion`, and `HTTP/1.1` is accepted via
the characterization. -/
theorem C8_witness :
    h1_read [Except.ok (str "GET /")] = Except.error .InvalidPrelude ∧
    h1_read [Except.ok (str "GET / HTTP/1.1.1")] = Except.error .InvalidVersion ∧
    parse_ver (str "HTTP/1.1") = some ⟨1, 1⟩ := by
  refine ⟨?_, ?_, ?_⟩
  · exact (C8_request_line_errors (str "GET /") []).1 (by decide)
  · exact (C8_request_line_errors (str "GET / HTTP/1.1.1") []).2.1
      (str "GET") (str "/") (str "HTTP/1.1.1") (by decide) (by decide)
  · exact ((C8_request_line_errors [] []).2.2.1 (str "HTTP/1.1") 1 1).2
      ⟨str "1", str "1", rfl, by decide, by decide, by decide, by decide⟩

theorem read_headers_errs (ds : List RStr) (acc : List (RStr × RStr))
    (h : ∀ l ∈ ds, l ≠ []) :
    ∃ e, read_headers (ds.map Except.ok) acc = Except.error e ∧
      e ≠ HttpRequestError.Io := by
  induction ds generalizing acc with
  | nil => exact ⟨.EarlyEof, rfl, by decide⟩
  | cons l rest ih =>
    have hl : l ≠ [] := h l (by simp)
    have hrest : ∀ x ∈ rest, x ≠ [] := fun x hx => h x (by simp [hx])
    have hle : l.isEmpty = false := by
      cases l with
      | nil => exact absurd rfl hl
      | cons a t => rfl
    rcases hph : parse_header l with _ | hd
    · exact ⟨.InvalidHeader, by simp [read_headers, hle, hph], by decide⟩
    · obtain ⟨e, he, hne⟩ := ih (acc ++ [hd]) hrest
      exact ⟨e, by simp [read_headers, hle, hph, he], hne⟩

theorem h1_read_errs (ds : List RStr) (h : ∀ l ∈ ds, l ≠ []) :
    ∃ e, h1_read (ds.map Except.ok) = Except.error e ∧
      e ≠ HttpRequestError.Io := by
  cases ds with
  | nil => exact ⟨.EarlyEof, rfl, by decide⟩
  | cons first rest =>
    rcases h3 : split3 first with _ | ⟨m, r, v⟩
    · exact ⟨.InvalidPrelude, by simp [h1_read, h3], by decide⟩
    · rcases hv : parse_ver v with _ | version
      · exact ⟨.InvalidVersion, by simp [h1_read, h3, hv], by decide⟩
      · obtain ⟨e, he, hne⟩ :=
          read_headers_errs rest [] (fun x hx => h x (by simp [hx]))
        exact ⟨e, by simp [h1_read, h3, hv, he], hne⟩

theorem utf8_decode_ne_nil (l : List Nat) (cs : RStr)
    (h : utf8_decode l = some cs) (hl : l ≠ []) : cs ≠ [] := by
  rcases l with _ | ⟨b, rest⟩
  · exact absurd rfl hl
  · simp only [utf8_decode, List.length_cons] at h
    simp only [utf8_decode_fuel] at h
    repeat' split at h
    all_goals
      first
      | (obtain ⟨cs2, -, rfl⟩ := Option.map_eq_some'.1 h
         simp)
      | exact absurd h (by simp)

theorem decode_all (ls : List (List Nat))
    (hne : ∀ l ∈ ls, l ≠ [])
    (hdec : ∀ l ∈ ls, (utf8_decode l).isSome) :
    ∃ ds : List RStr, ls.map decode_line = ds.map Except.ok ∧
      ∀ d ∈ ds, d ≠ [] := by
  induction ls with
  | nil => exact ⟨[], rfl, by simp⟩
  | cons l rest ih =>
    obtain ⟨ds, hds, hdne⟩ := ih (fun x hx => hne x (by simp [hx]))
      (fun x hx => hdec x (by simp [hx]))
    obtain ⟨cs, hcs⟩ := Option.isSome_iff_exists.1 (hdec l (by simp))
    refine ⟨cs :: ds, ?_, ?_⟩
    · simp [decode_line, hcs, hds]
    · intro d hd
      rcases List.mem_cons.1 hd with rfl | hd
      · exact utf8_decode_ne_nil l d hcs (hne l (by simp))
      · exact hdne d hd

/-- C10 (counterexample): an oversized request whose 20-byte capped
prefix cuts a two-byte UTF-8 character in half makes `read_line` raise
an `InvalidData` I/O error, so parsing fails with `Io` and the
connection is dropped with no 400 response; and an ASCII request capped
mid-header-line fails as `InvalidHeader`, not `EarlyEof` — both capped
prefixes contain no complete empty line, so both are instances of the
claim's oversized-request scenario. -/
theorem C10_counterexample :
    (∀ l ∈ raw_lines ((bytesOfAscii "GET / HTTP/1.1\r\nA: " ++ [195, 169] ++
      bytesOfAscii "X\r\n\r\n").take 20), l ≠ []) ∧
    server_read_request (bytesOfAscii "GET / HTTP/1.1\r\nA: " ++ [195, 169] ++
      bytesOfAscii "X\r\n\r\n") 20 = Except.error HttpRequestError.Io ∧
    handle_parse (server_read_request (bytesOfAscii "GET / HTTP/1.1\r\nA: " ++
      [195, 169] ++ bytesOfAscii "X\r\n\r\n") 20) = ConnStep.dropNoResponse ∧
    (∀ l ∈ raw_lines ((bytesOfAscii "GET / HTTP/1.1\r\nX-Head: value\r\n\r\n").take 22),
      l ≠ []) ∧
    server_read_request (bytesOfAscii "GET / HTTP/1.1\r\nX-Head: value\r\n\r\n") 22 =
      Except.error HttpRequestError.InvalidHeader := by
  exact ⟨by decide, rfl, rfl, by decide, rfl⟩

/-- C10 (amended): for every connection whose request line plus header
block exceeds the configured `max_headers_size` cap — formalized as: no
complete line of the capped byte prefix is empty — provided every line
of the capped prefix is valid UTF-8, request parsing fails with a
non-`Io` error (`EarlyEof`, `InvalidPrelude`, `InvalidVersion` or
`InvalidHeader`, depending on where the cap falls), so the server sends
a single 400 Bad Request response and closes the connection, and the
service's filter and handle steps are never invoked.  When the cap
splits a multi-byte UTF-8 sequence the parse fails with `Io` instead
and the connection is dropped with no response (see the
counterexample). -/
theorem C10_oversized_headers (bs : List Nat) (cap : Nat)
    (hne : ∀ l ∈ raw_lines (bs.take cap), l ≠ [])
    (hdec : ∀ l ∈ raw_lines (bs.take cap), (utf8_decode l).isSome) :
    handle_parse (server_read_request bs cap) = ConnStep.respondAndClose 400 := by
  obtain ⟨ds, hds, hdne⟩ := decode_all (raw_lines (bs.take cap)) hne hdec
  obtain ⟨e, he, hnio⟩ := h1_read_errs ds hdne
  have hsrr : server_read_request bs cap = Except.error e := by
    show h1_read ((raw_lines (bs.take cap)).map decode_line) = Except.error e
    rw [hds, he]
  rw [hsrr]
  cases e with
  | Io => exact absurd rfl hnio
  | NotUnicode => rfl
  | TooLong => rfl
  | EarlyEof => rfl
  | InvalidPrelude => rfl
  | InvalidVersion => rfl
  | InvalidHeader => rfl
  | InvalidLength => rfl

/-- Witness for C10: a request whose 22-byte capped prefix ends inside
a header line is answered with a single 400 and the connection is
closed. -/
theorem C10_witness :
    handle_parse (server_read_request
      (bytesOfAscii "GET / HTTP/1.1\r\nX-Head: value\r\n\r\n") 22) =
      ConnStep.respondAndClose 400 :=
  C10_oversized_headers (bytesOfAscii "GET / HTTP/1.1\r\nX-Head: value\r\n\r\n") 22
    (by decide) (by decide)

/-- Witness for C3 at a concrete input: the first `poll_read` puts the
whole preamble on the wire, yields the first body byte, later reads add
no further wire output, and without `Expect: 100-continue` nothing is
ever written. -/
theorem C3_witness :
    ((mkBody [9, 8, 7] 2 true).poll_read 1).2.written = continue_preamble ∧
    ((mkBody [9, 8, 7] 2 true).poll_read 1).1 = [9] ∧
    (((mkBody [9, 8, 7] 2 true).poll_read 1).2.run [BodyOp.readOp 5]).2.written =
      continue_preamble ∧
    ((mkBody [9, 8, 7] 2 false).run [BodyOp.readOp 5]).2.written = [] := by
  have h := C3_continue_lazy_emission [9, 8, 7] 2
  exact ⟨(h.2.2.2 1).1, ((h.2.2.2 1).2.1).trans (by decide),
    (h.2.2.2 1).2.2 [BodyOp.readOp 5], h.2.2.1 [BodyOp.readOp 5]⟩
